import Mathlib

/-!
# Verification of the GSPro proxy routing and arbitration core

A shallow embedding of the routing core of `main.py` (classes
`LaunchMonitor`, `GSProClient`, `GSProProxy`): the monitor registry, the
player-to-monitor arbitration, the per-message routing decisions, and the
reconnect backoff state machine.  Python objects become Lean structures;
object identity is modelled by a numeric `id` field (distinct live objects
have distinct ids); the mutable proxy state is threaded explicitly; the
network sends performed by a handler are returned as explicit lists of
`WireMsg` values.
-/

namespace GSProProxy

/-- Substring containment, modelling the Python expression `pat in s`. -/
def strContains (s pat : String) : Bool :=
  decide (pat.toList <:+: s.toList)

/-- A Python string-or-None value is falsy when it is `None` or empty,
modelling `not x` on an `Optional[str]`. -/
def strFalsy : Option String → Bool
  | none => true
  | some s => s == ""

/-- `LaunchMonitor`: one connected launch-monitor client.  `id` models the
Python object identity, `lastActivity` the `last_activity` timestamp
(time is supplied by callers as a `Nat`). -/
structure Monitor where
  id : Nat
  name : String
  playerName : Option String
  lastActivity : Nat
  active : Bool
deriving DecidableEq, Repr

/-- `LaunchMonitor.send_message`: a successful send updates the monitor's
`last_activity` timestamp to the current time. -/
def Monitor.sendMessage (m : Monitor) (now : Nat) : Monitor :=
  { m with lastActivity := now }

/-- One player-to-monitor mapping rule, as read from JSON configuration:
each of the three fields may be missing (`rule.get(...)` returning `None`). -/
structure Rule where
  playerAttribute : Option String
  attributeValue : Option String
  monitorPattern : Option String
deriving DecidableEq, Repr

/-- The default `player_monitor_rules` built into `GSProProxy.__init__`. -/
def defaultRules : List Rule :=
  [⟨some "Handed", some "RH", some "1"⟩,
   ⟨some "Handed", some "LH", some "2"⟩]

/-- A player-information object (the `Player` substructure or the dict
passed to `determine_active_monitor_for_player`): string-valued fields. -/
abbrev PlayerInfo := List (String × String)

/-- `player_info.get(key)`. -/
def piGet (pi : PlayerInfo) (key : String) : Option String :=
  (pi.find? (fun p => p.1 == key)).map (fun p => p.2)

/-- The fields of a parsed JSON message that the routing core inspects.
Each field records the value of the corresponding Python access:
`headerMessageType` is `msg_data.get("Header", {}).get("MessageType", "")`,
`playerInfoName` is `msg_data.get("PlayerInfo", {}).get("Name", "")`,
`hasBallData` is `"BallData" in msg_data`, `hasBallDataLower` is
`"ballData" in msg_data`, `hasShotData` is `"shotData" in msg_data`,
`shotDataOptions` is the `ShotDataOptions` substructure when the key is
present, `code` is `msg_data.get("Code")` when numeric, `player` is the
`Player` substructure when the key is present, and `shotDataPlayerName`
is `msg_data.get("ShotData", {}).get("PlayerName", "")`. -/
structure ShotDataOptions where
  containsBallData : Bool
  isHeartBeat : Bool
deriving DecidableEq, Repr

structure MsgData where
  headerMessageType : String
  playerInfoName : String
  hasBallData : Bool
  hasBallDataLower : Bool
  hasShotData : Bool
  shotDataOptions : Option ShotDataOptions
  code : Option Int
  player : Option PlayerInfo
  shotDataPlayerName : String
deriving DecidableEq, Repr

/-- A message written to a socket by the proxy: either the inbound message
forwarded unmodified (`original`), or a freshly constructed JSON record
`{Code: code, Message: message}` (`response`). -/
inductive WireMsg where
  | original : WireMsg
  | response (code : Int) (message : String) : WireMsg
deriving DecidableEq, Repr

/-- The rejection text sent to an inactive monitor whose shot is ignored. -/
def rejectionMessage : String :=
  "Shot ignored - this launch monitor is not active for the current player"

/-- `GSProClient`: the managed connection to GSPro.  Only the fields the
backoff state machine touches are kept (`websocket` is the transport). -/
structure GSProClient where
  host : String
  port : Nat
  connected : Bool
  reconnectDelay : Nat
deriving DecidableEq, Repr

/-- `GSProClient.__init__`: starts disconnected with a 1-second delay. -/
def GSProClient.init (host : String) (port : Nat) : GSProClient :=
  { host := host, port := port, connected := false, reconnectDelay := 1 }

/-- One failed iteration of the `connect` loop: the client sleeps
`reconnect_delay` seconds (returned), then doubles the delay capped at 30
(`self.reconnect_delay = min(30, self.reconnect_delay * 2)`). -/
def GSProClient.failAttempt (c : GSProClient) : GSProClient × Nat :=
  ({ c with connected := false, reconnectDelay := min 30 (c.reconnectDelay * 2) },
   c.reconnectDelay)

/-- A successful iteration of the `connect` loop: connected, delay reset. -/
def GSProClient.succeedAttempt (c : GSProClient) : GSProClient :=
  { c with connected := true, reconnectDelay := 1 }

/-- The list of delays slept during `n` consecutive failed connect
attempts, in order. -/
def GSProClient.failDelays (c : GSProClient) : Nat → List Nat
  | 0 => []
  | n + 1 =>
    let (c1, d) := c.failAttempt
    d :: c1.failDelays n

/-- `GSProProxy` state: the ordered monitor list, the most-recently
activated reference (`active_monitor`, held by object identity, i.e. id),
the configured rules, and the GSPro client. -/
structure ProxyState where
  launchMonitors : List Monitor
  activeMonitor : Option Nat
  playerMonitorRules : List Rule
  gspro : GSProClient
deriving DecidableEq, Repr

/-- `GSProProxy.__init__` (with the built-in default rules; configuration
loading is outside the core). -/
def ProxyState.init (gsproHost : String) (gsproPort : Nat) : ProxyState :=
  { launchMonitors := []
    activeMonitor := none
    playerMonitorRules := defaultRules
    gspro := GSProClient.init gsproHost gsproPort }

/-- `GSProProxy.determine_active_monitor_for_player`, inner rule loop:
scan the rules in order; skip a rule any of whose three fields is missing
or falsy; when `player_info[attribute] == value`, scan the monitors in
order for the first whose name contains the pattern; return it, otherwise
continue with the remaining rules. -/
def ruleScan (rules : List Rule) (monitors : List Monitor) (pi : PlayerInfo) :
    Option Monitor :=
  match rules with
  | [] => none
  | r :: rest =>
    if strFalsy r.playerAttribute || strFalsy r.attributeValue ||
        strFalsy r.monitorPattern then
      ruleScan rest monitors pi
    else if piGet pi (r.playerAttribute.getD "") == r.attributeValue then
      match monitors.find? (fun m => strContains m.name (r.monitorPattern.getD "")) with
      | some m => some m
      | none => ruleScan rest monitors pi
    else
      ruleScan rest monitors pi

/-- `GSProProxy.determine_active_monitor_for_player`: `None` when the
player info is empty or no monitors are connected; otherwise the rule
scan's result, falling back to the first monitor. -/
def determineActiveMonitorForPlayer (s : ProxyState) (pi : PlayerInfo) :
    Option Monitor :=
  if pi.isEmpty || s.launchMonitors.isEmpty then none
  else
    match ruleScan s.playerMonitorRules s.launchMonitors pi with
    | some m => some m
    | none => s.launchMonitors.head?

/-- `GSProProxy.set_active_monitor`: when the monitor is a member, clear
the `active` flag of the monitor currently referenced by `active_monitor`
(if any), then set the given monitor's flag and point `active_monitor` at
it; otherwise do nothing. -/
def setActiveMonitor (s : ProxyState) (mid : Nat) : ProxyState :=
  if s.launchMonitors.any (fun m => m.id == mid) then
    { s with
      launchMonitors :=
        (s.launchMonitors.map (fun m =>
          if s.activeMonitor = some m.id then { m with active := false } else m)).map
          (fun m => if m.id = mid then { m with active := true } else m)
      activeMonitor := some mid }
  else s

/-- `GSProProxy.add_launch_monitor`: generate a name `LM_<n+1>` when none
(or an empty one) was supplied, append a fresh inactive monitor, and if it
is the first monitor make it active.  `freshId` models the identity of the
newly allocated Python object. -/
def addLaunchMonitor (s : ProxyState) (freshId : Nat) (name : Option String)
    (now : Nat) : ProxyState :=
  let nm :=
    if strFalsy name then "LM_" ++ toString (s.launchMonitors.length + 1)
    else name.getD ""
  let m : Monitor :=
    { id := freshId, name := nm, playerName := none, lastActivity := now,
      active := false }
  let s1 := { s with launchMonitors := s.launchMonitors ++ [m] }
  if s1.launchMonitors.length = 1 then setActiveMonitor s1 freshId else s1

/-- `GSProProxy.remove_launch_monitor`: no-op for a non-member; otherwise
remove it, and if it was the `active_monitor` reference promote the first
remaining monitor (flag set, reference updated); when nothing remains,
clear the reference. -/
def removeLaunchMonitor (s : ProxyState) (m : Monitor) : ProxyState :=
  if m ∈ s.launchMonitors then
    match s.launchMonitors.erase m with
    | [] => { s with launchMonitors := [], activeMonitor := none }
    | h :: t =>
      if s.activeMonitor = some m.id then
        { s with launchMonitors := { h with active := true } :: t,
                 activeMonitor := some h.id }
      else
        { s with launchMonitors := h :: t }
  else s

/-- Record a send to the monitor with the given id: its `last_activity`
timestamp becomes `now` (`LaunchMonitor.send_message`). -/
def touchMonitor (s : ProxyState) (mid : Nat) (now : Nat) : ProxyState :=
  { s with launchMonitors :=
      s.launchMonitors.map (fun m =>
        if m.id = mid then m.sendMessage now else m) }

/-- Record a send to every connected monitor. -/
def touchAll (s : ProxyState) (now : Nat) : ProxyState :=
  { s with launchMonitors :=
      s.launchMonitors.map (fun m => m.sendMessage now) }

/-- `monitor.player_name = player_name` on the member with this id. -/
def recordPlayerName (s : ProxyState) (mid : Nat) (pname : String) : ProxyState :=
  { s with launchMonitors :=
      s.launchMonitors.map (fun m =>
        if m.id = mid then { m with playerName := some pname } else m) }

/-- The `active` flag of the member monitor with this id (`monitor.active`;
`false` when no such member exists). -/
def monitorActive (s : ProxyState) (mid : Nat) : Bool :=
  match s.launchMonitors.find? (fun m => m.id == mid) with
  | some m => m.active
  | none => false

/-- Monitor-origin classification `is_shot_data`: a `BallData`, `ballData`
or `shotData` substructure present, or `ShotDataOptions.ContainsBallData`
true. -/
def isShotData (d : MsgData) : Bool :=
  d.hasBallData || d.hasBallDataLower || d.hasShotData ||
    (match d.shotDataOptions with
     | some o => o.containsBallData
     | none => false)

/-- Monitor-origin classification `is_heartbeat`:
`ShotDataOptions.IsHeartBeat` true. -/
def isHeartbeat (d : MsgData) : Bool :=
  match d.shotDataOptions with
  | some o => o.isHeartBeat
  | none => false

/-- Monitor-origin classification player-info: the header message type
contains the substring `PlayerInfo` and the carried player name is
non-empty. -/
def isPlayerInfoMsg (d : MsgData) : Bool :=
  strContains d.headerMessageType "PlayerInfo" && d.playerInfoName != ""

/-- Result of handling one monitor-origin message: the new proxy state and
the messages written to the simulator and back to the originating
monitor, in order. -/
structure MonitorHandleResult where
  state : ProxyState
  toGspro : List WireMsg
  toMonitor : List WireMsg
deriving DecidableEq, Repr

/-- The player-info step at the top of
`GSProProxy.handle_launch_monitor_message`: when the header message type
contains `PlayerInfo` and the carried name is non-empty, record the name
on the originating monitor and make it active. -/
def playerInfoStep (s : ProxyState) (mid : Nat) (d : MsgData) : ProxyState :=
  if isPlayerInfoMsg d then
    setActiveMonitor (recordPlayerName s mid d.playerInfoName) mid
  else s

/-- `GSProProxy.handle_launch_monitor_message` for the monitor with id
`mid`.  `parsed = none` models a `json.JSONDecodeError` from
`json.loads`: the message is dropped (log only).  Otherwise: the
player-info step runs first; then a heartbeat is always forwarded to
GSPro; then shot data is forwarded only when the monitor is active,
otherwise a `{Code: 400, ...}` rejection is sent back to the monitor
(updating its `last_activity`); any other message is forwarded to GSPro. -/
def handleLaunchMonitorMessage (s : ProxyState) (mid : Nat)
    (parsed : Option MsgData) (now : Nat) : MonitorHandleResult :=
  match parsed with
  | none => { state := s, toGspro := [], toMonitor := [] }
  | some d =>
    let s1 := playerInfoStep s mid d
    if isHeartbeat d then
      { state := s1, toGspro := [WireMsg.original], toMonitor := [] }
    else if isShotData d then
      if monitorActive s1 mid then
        { state := s1, toGspro := [WireMsg.original], toMonitor := [] }
      else
        { state := touchMonitor s1 mid now, toGspro := [],
          toMonitor := [WireMsg.response 400 rejectionMessage] }
    else
      { state := s1, toGspro := [WireMsg.original], toMonitor := [] }

/-- Result of handling one simulator-origin message: the new proxy state
and the messages sent to monitors, as (monitor id, message) pairs in send
order. -/
structure GsproHandleResult where
  state : ProxyState
  sends : List (Nat × WireMsg)
deriving DecidableEq, Repr

/-- The player name extracted from a non-201 simulator message: from
`PlayerInfo.Name` when the message type contains `PlayerInfo`, from
`ShotData.PlayerName` when it contains `ShotData`, otherwise empty
(models `player_name = None`). -/
def extractPlayerName (d : MsgData) : String :=
  if strContains d.headerMessageType "PlayerInfo" then d.playerInfoName
  else if strContains d.headerMessageType "ShotData" then d.shotDataPlayerName
  else ""

/-- `GSProProxy.handle_gspro_message`.  `parsed = none` models malformed
JSON: the raw message is still broadcast to all monitors.  A parsed
message with `Code == 201` and a `Player` substructure runs arbitration,
deactivates every monitor, activates the arbitration result (when any),
and broadcasts the original message to every monitor.  Any other parsed
message goes to the monitor registered under the extracted player name,
else to the `active_monitor` reference, else it is broadcast. -/
def handleGsproMessage (s : ProxyState) (parsed : Option MsgData) (now : Nat) :
    GsproHandleResult :=
  match parsed with
  | none =>
    { state := touchAll s now,
      sends := s.launchMonitors.map (fun m => (m.id, WireMsg.original)) }
  | some d =>
    if d.code = some 201 ∧ d.player.isSome then
      let pi := d.player.getD []
      let chosen := determineActiveMonitorForPlayer s pi
      let s1 := { s with launchMonitors :=
        s.launchMonitors.map (fun m => { m with active := false }) }
      let s2 := match chosen with
        | some m => setActiveMonitor s1 m.id
        | none => s1
      { state := touchAll s2 now,
        sends := s2.launchMonitors.map (fun m => (m.id, WireMsg.original)) }
    else
      let pname := extractPlayerName d
      let byPlayer : Option Nat :=
        if pname == "" then none
        else (s.launchMonitors.find? (fun m => m.playerName == some pname)).map
          (fun m => m.id)
      let target : Option Nat :=
        match byPlayer with
        | some t => some t
        | none => s.activeMonitor
      match target with
      | some t =>
        { state := touchMonitor s t now, sends := [(t, WireMsg.original)] }
      | none =>
        { state := touchAll s now,
          sends := s.launchMonitors.map (fun m => (m.id, WireMsg.original)) }

/-! ## Specification-side definitions

Renderings of the spec's description of arbitration, used to compare the
implementation against the spec's words, plus the registry invariants. -/

/-- A rule all three of whose fields are present (the way §4.2's
"rule with all three fields present" reads literally). -/
def ruleFieldsPresent (r : Rule) : Bool :=
  r.playerAttribute.isSome && r.attributeValue.isSome && r.monitorPattern.isSome

/-- A rule all three of whose fields are present and non-empty (what the
code's falsiness test actually skips). -/
def ruleFieldsUsable (r : Rule) : Bool :=
  !(strFalsy r.playerAttribute || strFalsy r.attributeValue ||
    strFalsy r.monitorPattern)

/-- The rule's attribute/value test against the player info. -/
def ruleMatchesPlayer (r : Rule) (pi : PlayerInfo) : Bool :=
  piGet pi (r.playerAttribute.getD "") == r.attributeValue

/-- The first live monitor (in insertion order) whose name contains the
rule's pattern. -/
def firstMonitorForRule (monitors : List Monitor) (r : Rule) : Option Monitor :=
  monitors.find? (fun m => strContains m.name (r.monitorPattern.getD ""))

/-- Arbitration as the claim states it: absent for empty player info or no
monitors; otherwise the first monitor matching the earliest rule — with
all three fields *present* — that matches the player info and yields a
monitor; fallback to the first monitor. -/
def claimDetermine (s : ProxyState) (pi : PlayerInfo) : Option Monitor :=
  if pi.isEmpty || s.launchMonitors.isEmpty then none
  else
    match (s.playerMonitorRules.filter
        (fun r => ruleFieldsPresent r && ruleMatchesPlayer r pi)).findSome?
        (firstMonitorForRule s.launchMonitors) with
    | some m => some m
    | none => s.launchMonitors.head?

/-- Arbitration as amended: identical to `claimDetermine` except that a
rule is skipped when any of its three fields is missing *or empty*. -/
def amendedDetermine (s : ProxyState) (pi : PlayerInfo) : Option Monitor :=
  if pi.isEmpty || s.launchMonitors.isEmpty then none
  else
    match (s.playerMonitorRules.filter
        (fun r => ruleFieldsUsable r && ruleMatchesPlayer r pi)).findSome?
        (firstMonitorForRule s.launchMonitors) with
    | some m => some m
    | none => s.launchMonitors.head?

/-- The invariant exactly as the claim states it: at most one member is
active, and the `active_monitor` reference is unset or points to a current
member whose `active` flag is true. -/
def ClaimInv (s : ProxyState) : Prop :=
  (∀ m1 ∈ s.launchMonitors, ∀ m2 ∈ s.launchMonitors,
      m1.active = true → m2.active = true → m1 = m2) ∧
  (s.activeMonitor = none ∨
    ∃ m ∈ s.launchMonitors, some m.id = s.activeMonitor ∧ m.active = true)

/-- The inductive registry invariant the code actually maintains: monitor
identities are distinct, every active member is the `active_monitor`
reference, and the reference (when set) points to a current member — whose
flag need not be true. -/
def RegistryInv (s : ProxyState) : Prop :=
  (s.launchMonitors.map Monitor.id).Nodup ∧
  (∀ m ∈ s.launchMonitors, m.active = true → s.activeMonitor = some m.id) ∧
  (s.activeMonitor = none ∨
    ∃ m ∈ s.launchMonitors, some m.id = s.activeMonitor)

instance ClaimInv.decidable (s : ProxyState) : Decidable (ClaimInv s) := by
  unfold ClaimInv
  infer_instance

instance RegistryInv.decidable (s : ProxyState) : Decidable (RegistryInv s) := by
  unfold RegistryInv
  infer_instance

/-! ## Concrete fixtures -/

/-- Monitor LM_1 of Scenario A, currently active. -/
def mLM1 : Monitor := ⟨0, "LM_1", none, 0, true⟩

/-- Monitor LM_2 of Scenario A, currently inactive. -/
def mLM2 : Monitor := ⟨1, "LM_2", none, 0, false⟩

/-- Scenario A state: LM_1 and LM_2 connected, LM_1 active, default rules. -/
def sAB : ProxyState :=
  ⟨[mLM1, mLM2], some 0, defaultRules, GSProClient.init "localhost" 921⟩

/-- A state with a single connected, active monitor. -/
def sOne : ProxyState :=
  ⟨[⟨0, "LM_1", none, 0, true⟩], some 0, defaultRules,
    GSProClient.init "localhost" 921⟩

/-- A state whose first configured rule has an empty `monitor_pattern`. -/
def sC3 : ProxyState :=
  ⟨[⟨0, "LM_1", none, 0, false⟩, ⟨1, "LM_2", none, 0, false⟩], none,
    [⟨some "Handed", some "RH", some ""⟩, ⟨some "Handed", some "RH", some "2"⟩],
    GSProClient.init "localhost" 921⟩

/-- A right-handed player-info object. -/
def piRH : PlayerInfo := [("Handed", "RH")]

/-- The simulator message `{Code: 201, Player: {Handed: "RH"}}`. -/
def d201RH : MsgData :=
  { headerMessageType := "", playerInfoName := "", hasBallData := false,
    hasBallDataLower := false, hasShotData := false, shotDataOptions := none,
    code := some 201, player := some piRH, shotDataPlayerName := "" }

/-- A simulator message `{Code: 201, Player: {}}` with an empty `Player`. -/
def d201Empty : MsgData :=
  { headerMessageType := "", playerInfoName := "", hasBallData := false,
    hasBallDataLower := false, hasShotData := false, shotDataOptions := none,
    code := some 201, player := some [], shotDataPlayerName := "" }

/-- A plain shot-data message (`BallData` present, nothing else). -/
def dShot : MsgData :=
  { headerMessageType := "", playerInfoName := "", hasBallData := true,
    hasBallDataLower := false, hasShotData := false, shotDataOptions := none,
    code := none, player := none, shotDataPlayerName := "" }

/-- A message that is both shot data and player info: `BallData` present
together with a `PlayerInfo` header carrying a non-empty name. -/
def dShotPI : MsgData :=
  { headerMessageType := "GSPro.PlayerInfo", playerInfoName := "Alice",
    hasBallData := true, hasBallDataLower := false, hasShotData := false,
    shotDataOptions := none, code := none, player := none,
    shotDataPlayerName := "" }

/-- A plain player-info message from a monitor (no shot data, no
heartbeat). -/
def dPI : MsgData :=
  { headerMessageType := "GSPro.PlayerInfo", playerInfoName := "Alice",
    hasBallData := false, hasBallDataLower := false, hasShotData := false,
    shotDataOptions := none, code := none, player := none,
    shotDataPlayerName := "" }

/-- A message that is both a heartbeat and shot data:
`ShotDataOptions = {IsHeartBeat: true, ContainsBallData: true}`. -/
def dHB : MsgData :=
  { headerMessageType := "", playerInfoName := "", hasBallData := false,
    hasBallDataLower := false, hasShotData := false,
    shotDataOptions := some ⟨true, true⟩, code := none, player := none,
    shotDataPlayerName := "" }

/-! ## Helper lemmas -/

theorem map_id_pres {f : Monitor → Monitor} (hf : ∀ m, (f m).id = m.id)
    (l : List Monitor) : (l.map f).map Monitor.id = l.map Monitor.id := by
  rw [List.map_map]
  exact List.map_congr_left (fun m _ => hf m)

theorem min_cap_double (j : Nat) :
    min 30 (min 30 (2 ^ j) * 2) = min 30 (2 ^ (j + 1)) := by
  have h : 2 ^ (j + 1) = 2 ^ j * 2 := pow_succ 2 j
  omega

theorem failDelays_pow (n : Nat) :
    ∀ (j : Nat) (c : GSProClient), c.reconnectDelay = min 30 (2 ^ j) →
      c.failDelays n = (List.range n).map (fun k => min 30 (2 ^ (j + k))) := by
  induction n with
  | zero => intro j c _; rfl
  | succ n ih =>
    intro j c h
    have hstep :
        (c.failAttempt.1).reconnectDelay = min 30 (2 ^ (j + 1)) := by
      simp only [GSProClient.failAttempt, h, min_cap_double]
    have htail := ih (j + 1) c.failAttempt.1 hstep
    have hd : c.failAttempt.2 = min 30 (2 ^ (j + 0)) := by
      simpa [GSProClient.failAttempt] using h
    show c.failAttempt.2 :: (c.failAttempt.1).failDelays n = _
    rw [List.range_succ_eq_map, List.map_cons, List.map_map, hd, htail]
    refine congrArg _ (List.map_congr_left fun k _ => ?_)
    simp only [Function.comp]
    have hjk : j + 1 + k = j + (k + 1) := by omega
    rw [hjk]

theorem eq_singleton_of_erase_eq_nil {l : List Monitor} {m : Monitor}
    (hm : m ∈ l) (h : l.erase m = []) : l = [m] := by
  have hlen : (l.erase m).length = l.length - 1 := List.length_erase_of_mem hm
  rw [h] at hlen
  have hpos : 0 < l.length := List.length_pos.mpr (List.ne_nil_of_mem hm)
  have hone : l.length = 1 := by simp at hlen; omega
  obtain ⟨a, ha⟩ := List.length_eq_one.mp hone
  subst ha
  have : m = a := List.mem_singleton.mp hm
  subst this
  rfl

theorem ruleScan_eq_findSome (monitors : List Monitor) (pi : PlayerInfo)
    (rules : List Rule) :
    ruleScan rules monitors pi =
      (rules.filter
          (fun r => ruleFieldsUsable r && ruleMatchesPlayer r pi)).findSome?
        (firstMonitorForRule monitors) := by
  induction rules with
  | nil => rfl
  | cons r rest ih =>
    rw [ruleScan, List.filter_cons]
    by_cases hskip : (strFalsy r.playerAttribute || strFalsy r.attributeValue ||
        strFalsy r.monitorPattern) = true
    · rw [if_pos hskip]
      have hcond : ¬((ruleFieldsUsable r && ruleMatchesPlayer r pi) = true) := by
        simp [ruleFieldsUsable, hskip]
      rw [if_neg hcond]
      exact ih
    · rw [if_neg hskip]
      have husable : ruleFieldsUsable r = true := by
        simp only [ruleFieldsUsable, Bool.not_eq_true']
        exact Bool.eq_false_iff.mpr hskip
      by_cases hmatch :
          (piGet pi (r.playerAttribute.getD "") == r.attributeValue) = true
      · rw [if_pos hmatch]
        have hcond : (ruleFieldsUsable r && ruleMatchesPlayer r pi) = true := by
          rw [husable, Bool.true_and]
          exact hmatch
        rw [if_pos hcond, List.findSome?_cons]
        simp only [firstMonitorForRule]
        cases hfind : monitors.find?
            (fun m => strContains m.name (r.monitorPattern.getD "")) with
        | some m => rfl
        | none => exact ih
      · rw [if_neg hmatch]
        have hcond : ¬((ruleFieldsUsable r && ruleMatchesPlayer r pi) = true) := by
          simp only [ruleMatchesPlayer, Bool.and_eq_true]
          intro h
          exact hmatch h.2
        rw [if_neg hcond]
        exact ih

theorem exists_id_map {l : List Monitor} {i : Nat} {f : Monitor → Monitor}
    (hf : ∀ m, (f m).id = m.id) (h : ∃ m ∈ l, m.id = i) :
    ∃ m ∈ l.map f, m.id = i := by
  obtain ⟨m, hm, hid⟩ := h
  exact ⟨f m, List.mem_map_of_mem f hm, by rw [hf m, hid]⟩

theorem recordPlayerName_id (mid : Nat) (p : String) :
    ∀ m : Monitor,
      (if m.id = mid then { m with playerName := some p } else m).id =
        m.id := by
  intro m
  split <;> rfl

theorem recordPlayerName_members (s : ProxyState) (mid : Nat) (p : String) :
    ∀ y ∈ (recordPlayerName s mid p).launchMonitors, y.id = mid →
      y.playerName = some p := by
  intro y hy hid
  simp only [recordPlayerName, List.mem_map] at hy
  obtain ⟨x, hx, rfl⟩ := hy
  by_cases h : x.id = mid
  · simp [h]
  · simp [h] at hid

theorem setActive_members (s : ProxyState) (i : Nat)
    (hmem : ∃ m ∈ s.launchMonitors, m.id = i) :
    (setActiveMonitor s i).activeMonitor = some i ∧
    (∀ z ∈ (setActiveMonitor s i).launchMonitors,
      ∃ y ∈ s.launchMonitors, z.id = y.id ∧ z.playerName = y.playerName ∧
        (z.id = i → z.active = true)) ∧
    (∃ z ∈ (setActiveMonitor s i).launchMonitors, z.id = i) := by
  have hany : s.launchMonitors.any (fun x => x.id == i) = true := by
    rw [List.any_eq_true]
    obtain ⟨m, hm, hid⟩ := hmem
    exact ⟨m, hm, by simpa using hid⟩
  unfold setActiveMonitor
  rw [if_pos hany]
  refine ⟨rfl, ?_, ?_⟩
  · intro z hz
    simp only [List.map_map, List.mem_map, Function.comp] at hz
    obtain ⟨y, hy, rfl⟩ := hz
    refine ⟨y, hy, ?_, ?_, ?_⟩ <;>
      · split_ifs with h1 h2 <;> simp_all
  · obtain ⟨m, hm, hid⟩ := hmem
    simp only [List.map_map]
    refine ⟨_, List.mem_map_of_mem _ hm, ?_⟩
    simp only [Function.comp]
    split_ifs with h1 <;> simp_all

theorem ruleScan_mem {rules : List Rule} {monitors : List Monitor}
    {pi : PlayerInfo} {m : Monitor}
    (h : ruleScan rules monitors pi = some m) : m ∈ monitors := by
  induction rules with
  | nil => exact absurd h (by simp [ruleScan])
  | cons r rest ih =>
    rw [ruleScan] at h
    split at h
    · exact ih h
    · split at h
      · split at h
        · next heq =>
          injection h with h
          subst h
          exact List.mem_of_find?_eq_some heq
        · exact ih h
      · exact ih h

theorem determine_mem {s : ProxyState} {pi : PlayerInfo} {m : Monitor}
    (h : determineActiveMonitorForPlayer s pi = some m) :
    m ∈ s.launchMonitors := by
  unfold determineActiveMonitorForPlayer at h
  split at h
  · exact absurd h (by simp)
  · split at h
    · next heq =>
      injection h with h
      subst h
      exact ruleScan_mem heq
    · cases hl : s.launchMonitors with
      | nil => rw [hl] at h; simp at h
      | cons a t =>
        rw [hl] at h
        simp only [List.head?] at h
        injection h with h
        subst h
        exact List.mem_cons_self a t

theorem setActive_ids (s : ProxyState) (i : Nat) :
    (setActiveMonitor s i).launchMonitors.map Monitor.id =
      s.launchMonitors.map Monitor.id := by
  unfold setActiveMonitor
  split
  · simp only
    rw [map_id_pres (fun m => by split <;> rfl),
      map_id_pres (fun m => by split <;> rfl)]
  · rfl

/-! ## Claim theorems -/

/-- C5: `remove` is a no-op for a non-member; removing the monitor the
active reference points to promotes the earliest remaining monitor (flag
set true, reference updated); removing the last monitor clears the
reference; removing a monitor that is not the active reference leaves the
reference — and the remaining monitors' flags — unchanged (given that the
reference is unset or points to some other member). -/
theorem remove_semantics :
    (∀ s (m : Monitor), m ∉ s.launchMonitors → removeLaunchMonitor s m = s) ∧
    (∀ s (m h : Monitor) (t : List Monitor), m ∈ s.launchMonitors →
      s.activeMonitor = some m.id → s.launchMonitors.erase m = h :: t →
      (removeLaunchMonitor s m).launchMonitors =
        { h with active := true } :: t ∧
      (removeLaunchMonitor s m).activeMonitor = some h.id) ∧
    (∀ s (m : Monitor), m ∈ s.launchMonitors →
      s.launchMonitors.erase m = [] →
      (removeLaunchMonitor s m).activeMonitor = none ∧
      (removeLaunchMonitor s m).launchMonitors = []) ∧
    (∀ s (m : Monitor), m ∈ s.launchMonitors →
      s.activeMonitor ≠ some m.id →
      (s.activeMonitor = none ∨
        ∃ a ∈ s.launchMonitors, a ≠ m ∧ s.activeMonitor = some a.id) →
      (removeLaunchMonitor s m).activeMonitor = s.activeMonitor ∧
      (removeLaunchMonitor s m).launchMonitors = s.launchMonitors.erase m) := by
  refine ⟨?_, ?_, ?_, ?_⟩
  · intro s m hm
    unfold removeLaunchMonitor
    rw [if_neg hm]
  · intro s m h t hm hact heq
    unfold removeLaunchMonitor
    rw [if_pos hm]
    simp only [heq, if_pos hact]
    exact ⟨trivial, trivial⟩
  · intro s m hm heq
    unfold removeLaunchMonitor
    rw [if_pos hm]
    simp only [heq]
    exact ⟨trivial, trivial⟩
  · intro s m hm hact hvalid
    unfold removeLaunchMonitor
    rw [if_pos hm]
    cases heq : s.launchMonitors.erase m with
    | nil =>
      have hsing := eq_singleton_of_erase_eq_nil hm heq
      have hnone : s.activeMonitor = none := by
        rcases hvalid with h0 | ⟨a, ha, hne, hid⟩
        · exact h0
        · rw [hsing] at ha
          exact absurd (List.mem_singleton.mp ha) hne
      simp only [hnone]
      exact ⟨trivial, trivial⟩
    | cons h t =>
      simp only [if_neg hact]
      exact ⟨trivial, trivial⟩

/-- C5 witness: removing the active LM_1 from Scenario A promotes LM_2 and
updates the reference. -/
theorem remove_semantics_witness :
    (removeLaunchMonitor sAB mLM1).launchMonitors =
      [{ mLM2 with active := true }] ∧
    (removeLaunchMonitor sAB mLM1).activeMonitor = some mLM2.id :=
  remove_semantics.2.1 sAB mLM1 mLM2 [] (by decide) (by decide) (by decide)

/-- C3 counterexample: with a first rule whose three fields are all
*present* but whose pattern is the empty string, the code skips the rule
(empty strings are falsy) while the claim's reading uses it: on player
`{Handed: "RH"}` the claim's described result is LM_1 (the empty pattern
is contained in every name) but the code returns LM_2 via the second
rule. -/
theorem arbitration_claim_counterexample :
    claimDetermine sC3 piRH = some ⟨0, "LM_1", none, 0, false⟩ ∧
    determineActiveMonitorForPlayer sC3 piRH =
      some ⟨1, "LM_2", none, 0, false⟩ ∧
    determineActiveMonitorForPlayer sC3 piRH ≠ claimDetermine sC3 piRH := by
  decide

/-- C3 (amended): arbitration returns absent for empty player info or an
empty registry; otherwise it returns the first monitor (in insertion
order) whose name contains the pattern of the earliest rule — skipping
rules with any of the three fields missing *or empty* — whose
attribute/value matches the player info and which yields such a monitor;
with the first monitor as fallback when no rule yields one.  In
particular the earlier of two matching rules with live monitors wins. -/
theorem arbitration_matches_spec (s : ProxyState) (pi : PlayerInfo) :
    determineActiveMonitorForPlayer s pi = amendedDetermine s pi := by
  unfold determineActiveMonitorForPlayer amendedDetermine
  rw [ruleScan_eq_findSome]

/-- C3 witness: on Scenario A's registry and a right-handed player, both
the implementation and the amended specification yield LM_1. -/
theorem arbitration_matches_spec_witness :
    determineActiveMonitorForPlayer sAB piRH = amendedDetermine sAB piRH :=
  arbitration_matches_spec sAB piRH

/-- C6: the reconnect delay starts at 1 second; a run of `n` consecutive
failed connect attempts from a reset client sleeps the delays
`min 30 (2^k)` for `k = 0, 1, …, n-1` — that is `1, 2, 4, 8, 16, 30, 30, …`
— each subsequent delay the previous doubled capped at 30 and never
exceeding 30; a successful connection resets the delay so that the next
failure sleeps 1 second again. -/
theorem backoff_bounds :
    (∀ h p, (GSProClient.init h p).reconnectDelay = 1) ∧
    (∀ c : GSProClient, c.reconnectDelay = 1 → ∀ n,
        c.failDelays n = (List.range n).map (fun k => min 30 (2 ^ k))) ∧
    (∀ c : GSProClient, c.failAttempt.2 = c.reconnectDelay ∧
        (c.failAttempt.1).reconnectDelay = min 30 (c.reconnectDelay * 2)) ∧
    (∀ c : GSProClient, c.reconnectDelay = 1 →
        ∀ n, ∀ d ∈ c.failDelays n, d ≤ 30) ∧
    (∀ c : GSProClient, c.succeedAttempt.reconnectDelay = 1 ∧
        (c.succeedAttempt.failAttempt).2 = 1) := by
  have key : ∀ c : GSProClient, c.reconnectDelay = 1 → ∀ n,
      c.failDelays n = (List.range n).map (fun k => min 30 (2 ^ k)) := by
    intro c h n
    have := failDelays_pow n 0 c (by simpa using h)
    simpa using this
  refine ⟨fun _ _ => rfl, key, fun c => ⟨rfl, rfl⟩, ?_, fun c => ⟨rfl, rfl⟩⟩
  intro c h n d hd
  rw [key c h n] at hd
  rw [List.mem_map] at hd
  obtain ⟨k, _, rfl⟩ := hd
  exact min_le_left 30 (2 ^ k)

/-- C6 witness: eight consecutive failures from a fresh client sleep
exactly 1, 2, 4, 8, 16, 30, 30, 30 seconds. -/
theorem backoff_bounds_witness :
    (GSProClient.init "localhost" 921).failDelays 8 =
      (List.range 8).map (fun k => min 30 (2 ^ k)) :=
  backoff_bounds.2.1 (GSProClient.init "localhost" 921) rfl 8

/-- C8: a heartbeat message (`ShotDataOptions.IsHeartBeat` true) from any
monitor — member or not, active or not — is forwarded to the simulator
unmodified, with nothing sent back to the monitor, even when the message
also classifies as shot data. -/
theorem heartbeat_always_forwarded (s : ProxyState) (mid : Nat) (d : MsgData)
    (now : Nat) (h : isHeartbeat d = true) :
    (handleLaunchMonitorMessage s mid (some d) now).toGspro =
      [WireMsg.original] ∧
    (handleLaunchMonitorMessage s mid (some d) now).toMonitor = [] := by
  simp [handleLaunchMonitorMessage, h]

/-- C8 witness: a message that is simultaneously a heartbeat and shot data,
sent by the inactive monitor LM_2, is still forwarded. -/
theorem heartbeat_always_forwarded_witness :
    (handleLaunchMonitorMessage sAB 1 (some dHB) 3).toGspro =
      [WireMsg.original] ∧
    (handleLaunchMonitorMessage sAB 1 (some dHB) 3).toMonitor = [] :=
  heartbeat_always_forwarded sAB 1 dHB 3 (by decide)

/-- C9: malformed (unparseable-JSON) input is asymmetric: on the
monitor-to-simulator path the message is dropped — nothing sent to the
simulator, nothing sent back, state unchanged — while on the
simulator-to-monitor path the raw message is still broadcast to every
connected monitor. -/
theorem malformed_input_asymmetry :
    (∀ s mid now, handleLaunchMonitorMessage s mid none now =
        { state := s, toGspro := [], toMonitor := [] }) ∧
    (∀ s now, (handleGsproMessage s none now).sends =
        s.launchMonitors.map (fun m => (m.id, WireMsg.original))) :=
  ⟨fun _ _ _ => rfl, fun _ _ => rfl⟩

/-- C1 counterexample: a message that is shot data (BallData present) and
not a heartbeat, sent by the inactive member monitor LM_2, *is* forwarded
to the simulator with no rejection sent back — because the message also
carries a PlayerInfo header, which activates the sender first. -/
theorem shot_gating_counterexample :
    isShotData dShotPI = true ∧ isHeartbeat dShotPI = false ∧
    mLM2 ∈ sAB.launchMonitors ∧ mLM2.active = false ∧
    (handleLaunchMonitorMessage sAB mLM2.id (some dShotPI) 9).toGspro =
      [WireMsg.original] ∧
    (handleLaunchMonitorMessage sAB mLM2.id (some dShotPI) 9).toMonitor =
      [] := by
  decide

/-- C1 (amended): a shot-data message that is neither a heartbeat nor a
player-info message, from a monitor whose active flag is false, is never
forwarded to the simulator, and the sender receives exactly one rejection
record with code 400 and the shot-ignored message. -/
theorem shot_gating (s : ProxyState) (mid : Nat) (d : MsgData) (now : Nat)
    (hs : isShotData d = true) (hh : isHeartbeat d = false)
    (hp : isPlayerInfoMsg d = false) (ha : monitorActive s mid = false) :
    (handleLaunchMonitorMessage s mid (some d) now).toGspro = [] ∧
    (handleLaunchMonitorMessage s mid (some d) now).toMonitor =
      [WireMsg.response 400 rejectionMessage] := by
  simp [handleLaunchMonitorMessage, playerInfoStep, hp, hh, hs, ha]

/-- C1 witness: Scenario B — the inactive LM_2 sends plain shot data and
receives exactly the code-400 rejection; the simulator receives nothing. -/
theorem shot_gating_witness :
    (handleLaunchMonitorMessage sAB 1 (some dShot) 9).toGspro = [] ∧
    (handleLaunchMonitorMessage sAB 1 (some dShot) 9).toMonitor =
      [WireMsg.response 400 rejectionMessage] :=
  shot_gating sAB 1 dShot 9 (by decide) (by decide) (by decide) (by decide)

/-- C10: a successful send to a monitor updates that monitor's
`last_activity` timestamp; in particular, delivering the code-400
rejection for a gated shot updates the rejected monitor's timestamp. -/
theorem send_updates_last_activity :
    (∀ (m : Monitor) (now : Nat), (m.sendMessage now).lastActivity = now) ∧
    (∀ (s : ProxyState) (mid : Nat) (d : MsgData) (now : Nat),
      isShotData d = true → isHeartbeat d = false →
      isPlayerInfoMsg d = false → monitorActive s mid = false →
      ∀ m ∈ (handleLaunchMonitorMessage s mid (some d) now).state.launchMonitors,
        m.id = mid → m.lastActivity = now) := by
  refine ⟨fun _ _ => rfl, ?_⟩
  intro s mid d now hs hh hp ha m hm hid
  simp only [handleLaunchMonitorMessage, playerInfoStep, hp, hh, hs, ha,
    Bool.false_eq_true, if_false, if_true, touchMonitor, List.mem_map] at hm
  obtain ⟨y, _, rfl⟩ := hm
  by_cases hy : y.id = mid
  · simp only [hy, if_true]
    rfl
  · simp [hy] at hid

/-- C10 witness: after LM_2's shot is rejected at time 9, LM_2's
`last_activity` is 9. -/
theorem send_updates_last_activity_witness :
    ∀ m ∈ (handleLaunchMonitorMessage sAB 1 (some dShot) 9).state.launchMonitors,
      m.id = 1 → m.lastActivity = 9 :=
  send_updates_last_activity.2 sAB 1 dShot 9 (by decide) (by decide)
    (by decide) (by decide)

/-- C7 counterexample: a plain player-info message (PlayerInfo header,
non-empty name, no shot data, no heartbeat) from the member monitor LM_2
*is* forwarded to the simulator through the generic branch — the claim's
"not forwarded to the simulator" fails. -/
theorem player_info_counterexample :
    isPlayerInfoMsg dPI = true ∧ isHeartbeat dPI = false ∧
    isShotData dPI = false ∧ mLM2 ∈ sAB.launchMonitors ∧
    (handleLaunchMonitorMessage sAB mLM2.id (some dPI) 9).toGspro =
      [WireMsg.original] := by
  decide

/-- C7 (amended): a monitor-origin message classified as player-info from
a member monitor records the player name on the originating monitor and
activates it (flag set, reference updated) — and the message is then
still forwarded to the simulator (via the heartbeat, active-shot-data or
generic branch). -/
theorem player_info_routing (s : ProxyState) (mid : Nat) (d : MsgData)
    (now : Nat) (hp : isPlayerInfoMsg d = true)
    (hmem : ∃ m ∈ s.launchMonitors, m.id = mid) :
    (handleLaunchMonitorMessage s mid (some d) now).state.activeMonitor =
      some mid ∧
    (∀ z ∈ (handleLaunchMonitorMessage s mid (some d) now).state.launchMonitors,
      z.id = mid → z.active = true ∧ z.playerName = some d.playerInfoName) ∧
    (handleLaunchMonitorMessage s mid (some d) now).toGspro =
      [WireMsg.original] := by
  have hmem1 : ∃ m ∈ (recordPlayerName s mid d.playerInfoName).launchMonitors,
      m.id = mid := by
    unfold recordPlayerName
    exact exists_id_map (recordPlayerName_id mid d.playerInfoName) hmem
  obtain ⟨hact, hmembers, hexists⟩ :=
    setActive_members (recordPlayerName s mid d.playerInfoName) mid hmem1
  have hP : ∀ z ∈ (setActiveMonitor (recordPlayerName s mid d.playerInfoName)
      mid).launchMonitors, z.id = mid →
      z.active = true ∧ z.playerName = some d.playerInfoName := by
    intro z hz hzid
    obtain ⟨y, hy, hid, hpn, hactz⟩ := hmembers z hz
    refine ⟨hactz hzid, ?_⟩
    rw [hpn]
    exact recordPlayerName_members s mid d.playerInfoName y hy (by
      rw [← hid]; exact hzid)
  have hstep : playerInfoStep s mid d =
      setActiveMonitor (recordPlayerName s mid d.playerInfoName) mid := by
    unfold playerInfoStep
    rw [if_pos hp]
  have hactive : monitorActive (setActiveMonitor
      (recordPlayerName s mid d.playerInfoName) mid) mid = true := by
    unfold monitorActive
    cases hf : (setActiveMonitor (recordPlayerName s mid d.playerInfoName)
        mid).launchMonitors.find? (fun m => m.id == mid) with
    | none =>
      rw [List.find?_eq_none] at hf
      obtain ⟨z, hz, hzid⟩ := hexists
      exact absurd (by simpa using hzid) (hf z hz)
    | some z =>
      have hzmem := List.mem_of_find?_eq_some hf
      have hzid : z.id = mid := by simpa using List.find?_some hf
      exact (hP z hzmem hzid).1
  have hmain : handleLaunchMonitorMessage s mid (some d) now =
      { state := setActiveMonitor (recordPlayerName s mid d.playerInfoName) mid,
        toGspro := [WireMsg.original], toMonitor := [] } := by
    simp only [handleLaunchMonitorMessage]
    rw [hstep]
    by_cases hb : isHeartbeat d = true
    · rw [if_pos hb]
    · rw [if_neg hb]
      by_cases hsd : isShotData d = true
      · rw [if_pos hsd, if_pos hactive]
      · rw [if_neg hsd]
  rw [hmain]
  exact ⟨hact, hP, rfl⟩

/-- C7 witness: LM_2 sends a player-info message naming Alice; LM_2
becomes the active reference and the message is forwarded. -/
theorem player_info_routing_witness :
    (handleLaunchMonitorMessage sAB 1 (some dPI) 9).state.activeMonitor =
      some 1 ∧
    (handleLaunchMonitorMessage sAB 1 (some dPI) 9).toGspro =
      [WireMsg.original] :=
  ⟨(player_info_routing sAB 1 dPI 9 (by decide) ⟨mLM2, by decide, rfl⟩).1,
   (player_info_routing sAB 1 dPI 9 (by decide) ⟨mLM2, by decide, rfl⟩).2.2⟩

/-- C4: for every simulator-origin message with numeric Code 201 and a
Player substructure, with at least one monitor connected: whenever
arbitration on the Player substructure chooses a monitor, after handling
that monitor is the unique active one (all others deactivated), and every
connected monitor is sent the original message unmodified. -/
theorem player_info_201_broadcast (s : ProxyState) (d : MsgData) (now : Nat)
    (pi : PlayerInfo) (hc : d.code = some 201) (hp : d.player = some pi)
    (hne : s.launchMonitors ≠ []) :
    (∀ m, determineActiveMonitorForPlayer s pi = some m →
      ∀ x ∈ (handleGsproMessage s (some d) now).state.launchMonitors,
        (x.active = true ↔ x.id = m.id)) ∧
    (handleGsproMessage s (some d) now).sends =
      s.launchMonitors.map (fun mm => (mm.id, WireMsg.original)) := by
  have hcond : d.code = some 201 ∧ d.player.isSome = true :=
    ⟨hc, by rw [hp]; rfl⟩
  have hpi : d.player.getD [] = pi := by rw [hp]; rfl
  have hpairs : ∀ l : List Monitor,
      l.map (fun mm => (mm.id, WireMsg.original)) =
        (l.map Monitor.id).map (fun i => (i, WireMsg.original)) := by
    intro l
    rw [List.map_map]
    rfl
  have hred : ∀ m, determineActiveMonitorForPlayer s pi = some m →
      handleGsproMessage s (some d) now =
      { state := touchAll (setActiveMonitor
          { s with launchMonitors :=
            s.launchMonitors.map (fun z => { z with active := false }) }
          m.id) now,
        sends := (setActiveMonitor
          { s with launchMonitors :=
            s.launchMonitors.map (fun z => { z with active := false }) }
          m.id).launchMonitors.map (fun mm => (mm.id, WireMsg.original)) } := by
    intro m hm
    simp only [handleGsproMessage]
    rw [if_pos hcond, hpi, hm]
  have hredn : determineActiveMonitorForPlayer s pi = none →
      handleGsproMessage s (some d) now =
      { state := touchAll
          { s with launchMonitors :=
            s.launchMonitors.map (fun z => { z with active := false }) } now,
        sends := ({ s with launchMonitors :=
            s.launchMonitors.map (fun z => { z with active := false })
          } : ProxyState).launchMonitors.map
            (fun mm => (mm.id, WireMsg.original)) } := by
    intro hm
    simp only [handleGsproMessage]
    rw [if_pos hcond, hpi, hm]
  constructor
  · intro m hm x hx
    have hmem := determine_mem hm
    have hany : (({ s with launchMonitors :=
          s.launchMonitors.map (fun z => { z with active := false }) } :
        ProxyState).launchMonitors.any (fun z => z.id == m.id)) = true := by
      simp only
      rw [List.any_eq_true]
      exact ⟨{ m with active := false }, List.mem_map_of_mem _ hmem, by simp⟩
    rw [hred m hm] at hx
    simp only [touchAll, setActiveMonitor, hany, if_true, List.map_map,
      List.mem_map, Function.comp] at hx
    obtain ⟨y, hy, rfl⟩ := hx
    simp only [Monitor.sendMessage]
    split_ifs with h1 h2 <;> simp_all
  · have hpair_setActive : ∀ (t : ProxyState) (i : Nat),
        (setActiveMonitor t i).launchMonitors.map
            (fun mm => (mm.id, WireMsg.original)) =
          t.launchMonitors.map (fun mm => (mm.id, WireMsg.original)) := by
      intro t i
      rw [hpairs, setActive_ids, ← hpairs]
    have hpair_deact : ∀ t : ProxyState,
        (t.launchMonitors.map (fun z => { z with active := false })).map
            (fun mm => (mm.id, WireMsg.original)) =
          t.launchMonitors.map (fun mm => (mm.id, WireMsg.original)) := by
      intro t
      rw [hpairs, @map_id_pres (fun z => { z with active := false })
        (fun z => rfl) t.launchMonitors, ← hpairs]
    cases hdet : determineActiveMonitorForPlayer s pi with
    | some m =>
      rw [hred m hdet]
      exact (hpair_setActive _ m.id).trans (hpair_deact s)
    | none =>
      rw [hredn hdet]
      exact hpair_deact s

/-- C4 witness: Scenario A — `{Code:201, Player:{Handed:"RH"}}` with LM_1
and LM_2 connected makes LM_1 the unique active monitor and broadcasts
the message to both. -/
theorem player_info_201_broadcast_witness :
    ((⟨0, "LM_1", none, 7, true⟩ : Monitor).active = true ↔
      (⟨0, "LM_1", none, 7, true⟩ : Monitor).id = mLM1.id) ∧
    (handleGsproMessage sAB (some d201RH) 7).sends =
      sAB.launchMonitors.map (fun mm => (mm.id, WireMsg.original)) :=
  ⟨(player_info_201_broadcast sAB d201RH 7 piRH rfl rfl (by decide)).1
      mLM1 (by decide) ⟨0, "LM_1", none, 7, true⟩ (by decide),
   (player_info_201_broadcast sAB d201RH 7 piRH rfl rfl (by decide)).2⟩

theorem inv_map_pres (s : ProxyState) (f : Monitor → Monitor)
    (hid : ∀ m, (f m).id = m.id) (hact : ∀ m, (f m).active = m.active)
    (h : RegistryInv s) :
    RegistryInv { s with launchMonitors := s.launchMonitors.map f } := by
  obtain ⟨hnd, hone, href⟩ := h
  refine ⟨?_, ?_, ?_⟩
  · show ((s.launchMonitors.map f).map Monitor.id).Nodup
    rw [map_id_pres hid]
    exact hnd
  · intro x hx hxa
    simp only [List.mem_map] at hx
    obtain ⟨y, hy, rfl⟩ := hx
    have hya : y.active = true := by
      rw [← hact y]
      exact hxa
    show s.activeMonitor = some (f y).id
    rw [hid y]
    exact hone y hy hya
  · rcases href with h0 | ⟨a, ha, haid⟩
    · exact Or.inl h0
    · refine Or.inr ⟨f a, List.mem_map_of_mem f ha, ?_⟩
      show some (f a).id = s.activeMonitor
      rw [hid a]
      exact haid

theorem touchAll_inv (s : ProxyState) (now : Nat) (h : RegistryInv s) :
    RegistryInv (touchAll s now) :=
  inv_map_pres s (fun m => m.sendMessage now) (fun _ => rfl) (fun _ => rfl) h

theorem touchMonitor_inv (s : ProxyState) (mid now : Nat) (h : RegistryInv s) :
    RegistryInv (touchMonitor s mid now) :=
  inv_map_pres s (fun m => if m.id = mid then m.sendMessage now else m)
    (fun m => by dsimp only; split <;> rfl)
    (fun m => by dsimp only; split <;> rfl) h

theorem recordPlayerName_inv (s : ProxyState) (mid : Nat) (p : String)
    (h : RegistryInv s) : RegistryInv (recordPlayerName s mid p) :=
  inv_map_pres s
    (fun m => if m.id = mid then { m with playerName := some p } else m)
    (fun m => by dsimp only; split <;> rfl)
    (fun m => by dsimp only; split <;> rfl) h

theorem deactivateAll_inv (s : ProxyState) (h : RegistryInv s) :
    RegistryInv { s with launchMonitors :=
      s.launchMonitors.map (fun m => { m with active := false }) } := by
  obtain ⟨hnd, hone, href⟩ := h
  refine ⟨?_, ?_, ?_⟩
  · show ((s.launchMonitors.map _).map Monitor.id).Nodup
    rw [@map_id_pres (fun m => { m with active := false }) (fun _ => rfl)
      s.launchMonitors]
    exact hnd
  · intro x hx hxa
    simp only [List.mem_map] at hx
    obtain ⟨y, hy, rfl⟩ := hx
    simp at hxa
  · rcases href with h0 | ⟨a, ha, haid⟩
    · exact Or.inl h0
    · exact Or.inr ⟨{ a with active := false }, List.mem_map_of_mem _ ha, haid⟩

theorem setActive_inv (s : ProxyState) (i : Nat) (h : RegistryInv s) :
    RegistryInv (setActiveMonitor s i) := by
  obtain ⟨hnd, hone, href⟩ := h
  unfold setActiveMonitor
  split
  case isTrue hany =>
    refine ⟨?_, ?_, ?_⟩
    · show (((s.launchMonitors.map _).map _).map Monitor.id).Nodup
      rw [@map_id_pres (fun m => if m.id = i then { m with active := true }
            else m) (fun m => by dsimp only; split <;> rfl) _,
          @map_id_pres (fun m => if s.activeMonitor = some m.id then
            { m with active := false } else m)
            (fun m => by dsimp only; split <;> rfl) _]
      exact hnd
    · intro x hx hxa
      simp only [List.map_map, List.mem_map, Function.comp] at hx
      obtain ⟨y, hy, rfl⟩ := hx
      have hf1 : (if s.activeMonitor = some y.id then { y with active := false }
          else y).id = y.id := by split <;> rfl
      rw [hf1] at hxa ⊢
      by_cases h2 : y.id = i
      · rw [if_pos h2]
        show some i = some _
        dsimp only
        rw [h2]
      · rw [if_neg h2] at hxa
        by_cases h1 : s.activeMonitor = some y.id
        · rw [if_pos h1] at hxa
          simp at hxa
        · rw [if_neg h1] at hxa
          exact absurd (hone y hy hxa) h1
    · rw [List.any_eq_true] at hany
      obtain ⟨y, hy, hyid⟩ := hany
      have hyid2 : y.id = i := by simpa using hyid
      refine Or.inr ?_
      simp only [List.map_map]
      refine ⟨_, List.mem_map_of_mem _ hy, ?_⟩
      simp only [Function.comp]
      have hf1 : (if s.activeMonitor = some y.id then { y with active := false }
          else y).id = y.id := by split <;> rfl
      rw [hf1, if_pos hyid2]
      show some _ = some i
      dsimp only
      rw [hyid2]
  case isFalse _ =>
    exact ⟨hnd, hone, href⟩

theorem remove_inv (s : ProxyState) (m : Monitor) (h : RegistryInv s) :
    RegistryInv (removeLaunchMonitor s m) := by
  obtain ⟨hnd, hone, href⟩ := h
  have hndv : s.launchMonitors.Nodup := List.Nodup.of_map Monitor.id hnd
  unfold removeLaunchMonitor
  split
  case isFalse _ => exact ⟨hnd, hone, href⟩
  case isTrue hmem =>
    split
    case h_1 heq => exact ⟨by simp, by simp, Or.inl rfl⟩
    case h_2 hh tt heq =>
      have hsub : (hh :: tt).Sublist s.launchMonitors := by
        rw [← heq]
        exact List.erase_sublist m s.launchMonitors
      have hmem_sub : ∀ x ∈ hh :: tt, x ∈ s.launchMonitors :=
        fun x hx => hsub.subset hx
      have hnd2 : ((hh :: tt).map Monitor.id).Nodup :=
        List.Nodup.sublist (hsub.map Monitor.id) hnd
      have hmnotin : m ∉ hh :: tt := by
        rw [← heq]
        exact fun hx => ((List.Nodup.mem_erase_iff hndv).mp hx).1 rfl
      split
      case isTrue hrm =>
        refine ⟨?_, ?_, ?_⟩
        · have h2 := hnd2
          simp only [List.map_cons] at h2 ⊢
          exact h2
        · intro x hx hxa
          rcases List.mem_cons.mp hx with rfl | hx
          · rfl
          · have hxl : x ∈ s.launchMonitors :=
              hmem_sub x (List.mem_cons_of_mem _ hx)
            have hx2 := hone x hxl hxa
            rw [hrm] at hx2
            injection hx2 with hid
            have hxm : x = m :=
              List.inj_on_of_nodup_map hnd hxl hmem hid.symm
            subst hxm
            exact absurd (List.mem_cons_of_mem _ hx) hmnotin
        · exact Or.inr ⟨{ hh with active := true },
            List.mem_cons_self _ _, rfl⟩
      case isFalse hrm =>
        refine ⟨?_, ?_, ?_⟩
        · exact hnd2
        · intro x hx hxa
          exact hone x (hmem_sub x hx) hxa
        · rcases href with h0 | ⟨a, ha, haid⟩
          · exact Or.inl h0
          · refine Or.inr ⟨a, ?_, haid⟩
            have hne : a ≠ m := by
              intro hEq
              subst hEq
              exact hrm haid.symm
            rw [← heq]
            exact (List.Nodup.mem_erase_iff hndv).mpr ⟨hne, ha⟩

theorem append_inv (s : ProxyState) (m : Monitor) (h : RegistryInv s)
    (hfresh : m.id ∉ s.launchMonitors.map Monitor.id)
    (hmact : m.active = false) :
    RegistryInv { s with launchMonitors := s.launchMonitors ++ [m] } := by
  obtain ⟨hnd, hone, href⟩ := h
  refine ⟨?_, ?_, ?_⟩
  · show ((s.launchMonitors ++ [m]).map Monitor.id).Nodup
    rw [List.map_append, List.nodup_append]
    refine ⟨hnd, List.nodup_singleton _, ?_⟩
    intro a ha hb
    rw [List.map_singleton, List.mem_singleton] at hb
    subst hb
    exact hfresh ha
  · intro x hx hxa
    rcases List.mem_append.mp hx with hx | hx
    · exact hone x hx hxa
    · rw [List.mem_singleton] at hx
      subst hx
      rw [hmact] at hxa
      cases hxa
  · rcases href with h0 | ⟨a, ha, haid⟩
    · exact Or.inl h0
    · exact Or.inr ⟨a, List.mem_append_left _ ha, haid⟩

theorem add_inv (s : ProxyState) (freshId : Nat) (name : Option String)
    (now : Nat) (h : RegistryInv s)
    (hfresh : freshId ∉ s.launchMonitors.map Monitor.id) :
    RegistryInv (addLaunchMonitor s freshId name now) := by
  have key : ∀ nm : String,
      RegistryInv (if (s.launchMonitors ++
            [(⟨freshId, nm, none, now, false⟩ : Monitor)]).length = 1 then
          setActiveMonitor { s with launchMonitors := s.launchMonitors ++
            [(⟨freshId, nm, none, now, false⟩ : Monitor)] } freshId
        else { s with launchMonitors := s.launchMonitors ++
          [(⟨freshId, nm, none, now, false⟩ : Monitor)] }) := by
    intro nm
    have happ := append_inv s ⟨freshId, nm, none, now, false⟩ h hfresh rfl
    split
    · exact setActive_inv _ _ happ
    · exact happ
  unfold addLaunchMonitor
  dsimp only
  split
  · exact key _
  · exact key _

theorem handleLaunchMonitorMessage_inv (s : ProxyState) (mid : Nat)
    (parsed : Option MsgData) (now : Nat) (h : RegistryInv s) :
    RegistryInv (handleLaunchMonitorMessage s mid parsed now).state := by
  cases parsed with
  | none => exact h
  | some d =>
    have h1 : RegistryInv (playerInfoStep s mid d) := by
      unfold playerInfoStep
      split
      · exact setActive_inv _ _ (recordPlayerName_inv s mid d.playerInfoName h)
      · exact h
    simp only [handleLaunchMonitorMessage]
    split
    · exact h1
    · split
      · split
        · exact h1
        · exact touchMonitor_inv _ _ _ h1
      · exact h1

theorem handleGsproMessage_inv (s : ProxyState) (parsed : Option MsgData)
    (now : Nat) (h : RegistryInv s) :
    RegistryInv (handleGsproMessage s parsed now).state := by
  cases parsed with
  | none => exact touchAll_inv s now h
  | some d =>
    have h1 := deactivateAll_inv s h
    simp only [handleGsproMessage]
    split
    · split
      · exact touchAll_inv _ _ (setActive_inv _ _ h1)
      · exact touchAll_inv _ _ h1
    · split
      · exact touchMonitor_inv _ _ _ h
      · exact touchAll_inv _ _ h

/-- C2 counterexample: the state with one connected, active monitor
satisfies the claim's invariant, but handling the simulator message
`{Code: 201, Player: {}}` (an empty Player substructure) deactivates
every monitor while leaving the most-recently-activated reference set, so
the reference no longer points to a member with `active = true`. -/
theorem registry_invariant_counterexample :
    ClaimInv sOne ∧
    ¬ ClaimInv (handleGsproMessage sOne (some d201Empty) 3).state := by
  decide

/-- C2 (amended): every registry operation — add with a fresh monitor
identity, remove, set-active, monitor-message handling (player-info
included), simulator-message handling — preserves the invariant that
monitor identities are distinct, every member with `active = true` is the
most-recently-activated reference, and the reference, if set, points to a
current member of the collection (not necessarily one whose flag is still
true: simulator player-info handling with an empty Player deactivates all
monitors but keeps the reference).  In particular at most one member has
`active = true`. -/
theorem registry_invariant_preserved :
    (∀ s freshId name now, RegistryInv s →
        freshId ∉ s.launchMonitors.map Monitor.id →
        RegistryInv (addLaunchMonitor s freshId name now)) ∧
    (∀ s m, RegistryInv s → RegistryInv (removeLaunchMonitor s m)) ∧
    (∀ s i, RegistryInv s → RegistryInv (setActiveMonitor s i)) ∧
    (∀ s mid parsed now, RegistryInv s →
        RegistryInv (handleLaunchMonitorMessage s mid parsed now).state) ∧
    (∀ s parsed now, RegistryInv s →
        RegistryInv (handleGsproMessage s parsed now).state) ∧
    (∀ s, RegistryInv s → ∀ m1 ∈ s.launchMonitors, ∀ m2 ∈ s.launchMonitors,
        m1.active = true → m2.active = true → m1 = m2) := by
  refine ⟨add_inv, remove_inv, setActive_inv, handleLaunchMonitorMessage_inv,
    handleGsproMessage_inv, ?_⟩
  intro s h m1 hm1 m2 hm2 ha1 ha2
  obtain ⟨hnd, hone, _⟩ := h
  have e1 := hone m1 hm1 ha1
  have e2 := hone m2 hm2 ha2
  rw [e1] at e2
  injection e2 with hid
  exact List.inj_on_of_nodup_map hnd hm1 hm2 hid

/-- C2 witness: Scenario A's state satisfies the registry invariant, and
removing its active monitor preserves it. -/
theorem registry_invariant_witness :
    RegistryInv (removeLaunchMonitor sAB mLM1) :=
  registry_invariant_preserved.2.1 sAB mLM1 (by decide)

end GSProProxy
